import Mathlib

/-!
Verification of the event-ingestion and dispatch core of `vk_botting/client.py`
(class `Client`): the one-shot waiter registry (`wait_for` / `dispatch`), the
supervised handler execution (`_run_event`), the long-poll cursor handling
(`longpoll`, `get_longpoll_server`) and the per-envelope routing
(`handle_update`, the `while True` loop of `_run`).

Event arguments are modelled as `List Nat` (their identity is all the dispatch
code inspects), exceptions as `String` payloads, and the heap of `asyncio`
futures as a total function from future ids to future states, so that the
registry entry and the `wait_for` caller share one future.
-/

namespace VkBotting

/-- Result of evaluating a `wait_for` predicate: Python's `condition(*args)`
either returns a truthiness value (modelled as `Bool`) or raises an exception
(modelled as a `String` payload). -/
inductive CheckResult
  | ok (b : Bool)
  | exc (e : String)
  deriving DecidableEq, Repr

/-- A `wait_for` predicate: `condition` in `Client.dispatch`'s waiter loop. -/
abbrev Check := List Nat → CheckResult

/-- The value `Client.dispatch` resolves a matching waiter's future with:
`None` when there are no event arguments, the sole argument when there is one,
the whole argument tuple otherwise. -/
inductive DispatchVal
  | noArgs
  | single (v : Nat)
  | tuple (vs : List Nat)
  deriving DecidableEq, Repr

/-- State of one `asyncio` future as `Client.wait_for` / `Client.dispatch` use
it: pending, cancelled (what `future.cancelled()` reports), resolved by
`future.set_result`, or failed by `future.set_exception`. -/
inductive FutureState
  | pending
  | cancelled
  | result (v : DispatchVal)
  | failure (e : String)
  deriving DecidableEq, Repr

/-- Mirrors `future.cancelled()`. -/
def FutureState.isCancelled : FutureState → Bool
  | .cancelled => true
  | _ => false

/-- Point update of the future heap (one future object changes state, every
other future is untouched). -/
def setFuture (fs : Nat → FutureState) (fid : Nat) (v : FutureState) :
    Nat → FutureState :=
  fun j => if j = fid then v else fs j

/-- Listener bookkeeping of `Client`: `futures` is the heap of futures (a
future is named by its id, so the registry entry and the `wait_for` caller
alias one future), `nextId` the next fresh id, and `listeners` is
`self._listeners`, the dict from event name to the ordered list of
`(future, check)` pairs (a Python dict keeps insertion order and has one entry
per key). -/
structure ClientState where
  futures : Nat → FutureState
  nextId : Nat
  listeners : List (String × List (Nat × Check))

/-- Mirrors `self._listeners.get(event)`: the value at the key, if present. -/
def getListeners (st : ClientState) (event : String) :
    Option (List (Nat × Check)) :=
  (st.listeners.find? (fun p => p.1 == event)).map (fun p => p.2)

/-- Python's `event.lower()` as `Client.wait_for` applies it: lower-case every
character. (Stated over the string's character list; the standard library's
`String.toLower` computes the same string but does not reduce in the kernel.) -/
def lower (s : String) : String := ⟨s.data.map Char.toLower⟩

/-- The default predicate `_check` that `Client.wait_for` installs when no
`check` is passed: it accepts every event. -/
def default_check : Check := fun _ => CheckResult.ok true

/-- `Client.wait_for(event, check=..., timeout=...)` up to the final
`asyncio.wait_for` call: create a fresh future, lower-case the event name,
fetch the listener list for it (creating an empty one on `KeyError`) and
append `(future, check)`. Returns the new state and the id of the future that
`asyncio.wait_for(future, timeout)` then awaits. -/
def wait_for (st : ClientState) (event : String) (check : Check) :
    ClientState × Nat :=
  let fid := st.nextId
  let fs := setFuture st.futures fid FutureState.pending
  let ev := lower event
  let listeners1 :=
    match getListeners st ev with
    | none => st.listeners ++ [(ev, [(fid, check)])]
    | some ls =>
        st.listeners.map (fun p => if p.1 == ev then (p.1, ls ++ [(fid, check)]) else p)
  (⟨fs, fid + 1, listeners1⟩, fid)

/-- What `asyncio.wait_for(future, timeout)` does when `timeout` elapses before
the future is resolved: it cancels the future and raises
`asyncio.TimeoutError` to the caller. `Client.wait_for` itself runs no cleanup
at that point, so nothing but the future's own state changes. -/
def timeout_expire (st : ClientState) (fid : Nat) : ClientState :=
  { st with futures := setFuture st.futures fid FutureState.cancelled }

/-- One iteration of the waiter loop of `Client.dispatch` for the entry
`(future, condition)`: the resulting state of this entry's future and whether
the entry's index is appended to `removed`. A future that is already cancelled
is removed without `condition` being evaluated; a raising `condition` gets its
exception set on the future; a truthy result resolves the future with the
value determined by the argument count; a falsy result leaves the entry. -/
def waiterStep (args : List Nat) (st : FutureState) (condition : Check) :
    FutureState × Bool :=
  if st.isCancelled then (st, true)
  else
    match condition args with
    | .exc e => (.failure e, true)
    | .ok true => (.result (dispatchVal args), true)
    | .ok false => (st, false)
where
  /-- The `set_result` value: `None` for zero arguments (`future.set_result(None)`),
  the sole argument for one, the full ordered tuple otherwise. -/
  dispatchVal (args : List Nat) : DispatchVal :=
    match args with
    | [] => .noArgs
    | [a] => .single a
    | _ => .tuple args

/-- The whole `for i, (future, condition) in enumerate(listeners)` loop of
`Client.dispatch`: the updated future heap and, per entry in order, whether its
index joined `removed`. The branches that leave a future as it was are written
as an update with the unchanged value, which touches nothing. -/
def waiterPass (args : List Nat) (fs : Nat → FutureState) :
    List (Nat × Check) → (Nat → FutureState) × List Bool
  | [] => (fs, [])
  | (fid, condition) :: rest =>
    let step := waiterStep args (fs fid) condition
    let next := waiterPass args (setFuture fs fid step.1) rest
    (next.1, step.2 :: next.2)

/-- `Client.dispatch(event, *args)`, waiter part: look the event name up
verbatim with `self._listeners.get(event)` (no normalisation happens here);
when a non-empty list is found, run the waiter loop; afterwards, when every
entry was removed (`len(removed) == len(listeners)`) `pop` the key, otherwise
delete the removed indices in reverse — which keeps exactly the non-removed
entries, in order. The handler half of `dispatch` (the `getattr` lookup of
`'on_' + event` handed to `_schedule_event`) is modelled by `run_event` below. -/
def dispatch (st : ClientState) (event : String) (args : List Nat) :
    ClientState :=
  match getListeners st event with
  | none => st
  | some ls =>
    if ls.isEmpty then st
    else
      let passed := waiterPass args st.futures ls
      let kept := ((ls.zip passed.2).filter (fun p => !p.2)).map (fun p => p.1)
      let listeners1 :=
        if passed.2.all (fun b => b) then
          st.listeners.filter (fun p => !(p.1 == event))
        else
          st.listeners.map (fun p => if p.1 == event then (p.1, kept) else p)
      ⟨passed.1, st.nextId, listeners1⟩

/-! ## Envelope routing: `Client.handle_update` and the loop of `Client._run` -/

/-- One raw update envelope as `Client.handle_update` reads it: its `'type'`
key and, for `message_new` envelopes, the message's `payload` and
`action.type` fields that `Client.handle_message` inspects. -/
structure Update where
  type : String
  payload : Option String := none
  action : Option String := none
  deriving DecidableEq, Repr

/-- How `Client.handle_update` disposes of one envelope: dispatch synchronously
inside `handle_update` itself (`sync`), hand a coroutine to
`self.loop.create_task` whose body dispatches the named event when it runs
(`task`), or fall off the end of the `if`/`elif` chain (`drop`). -/
inductive UpdateAction
  | sync (event : String)
  | task (event : String)
  | drop
  deriving DecidableEq, Repr

/-- The `self._implemented_events` list of `Client.__init__`. -/
def implemented_events : List String :=
  ["message_new", "message_reply", "message_allow", "message_deny",
   "message_edit", "message_typing_state", "photo_new", "audio_new",
   "video_new", "wall_reply_new", "wall_reply_edit", "wall_reply_delete",
   "wall_reply_restore", "wall_post_new", "wall_repost", "board_post_new",
   "board_post_edit", "board_post_restore", "board_post_delete",
   "photo_comment_new", "photo_comment_edit", "photo_comment_delete",
   "photo_comment_restore", "video_comment_new", "video_comment_edit",
   "video_comment_delete", "video_comment_restore", "market_comment_new",
   "market_comment_edit", "market_comment_delete", "market_comment_restore",
   "poll_vote_new", "group_join", "group_leave", "group_change_settings",
   "group_change_photo", "group_officers_edit", "user_block", "user_unblock"]

/-- Which event `Client.handle_message` dispatches (synchronously, via
`build_msg` which makes no network call): `conversation_start` for the start
payload, the message action's type when one is present, else `message_new`. -/
def handle_message_event (payload action : Option String) : String :=
  if payload = some "\x7b\"command\":\"start\"\x7d" then "conversation_start"
  else
    match action with
    | some a => a
    | none => "message_new"

/-- `Client.handle_update(update)`: the `if`/`elif` chain over the envelope's
type. `message_new` goes through `handle_message` synchronously; the
`message_reply`, `message_edit` branches call their (plain, non-async) handlers
directly, as does the `video_comment_new`/`_edit`/`_restore` branch
(`handle_video_comment_new` is a plain `def`); every other matched branch wraps
an async handler in `self.loop.create_task`; the final branch dispatches
`unknown` synchronously for types outside `self._implemented_events`; anything
else falls through and is discarded. -/
def handle_update (extra : List String) (u : Update) : UpdateAction :=
  let t := u.type
  if t = "message_new" then .sync (handle_message_event u.payload u.action)
  else if t = "message_reply" ∧ "on_message_reply" ∈ extra then .sync t
  else if t = "message_edit" ∧ "on_message_edit" ∈ extra then .sync t
  else if t = "message_typing_state" ∧ "on_message_typing_state" ∈ extra then .task t
  else if (t = "message_allow" ∨ t = "message_deny")
      ∧ ("on_message_allow" ∈ extra ∨ "on_message_deny" ∈ extra) then .task t
  else if t = "photo_new" ∧ "on_photo_new" ∈ extra then .task t
  else if (t = "photo_comment_new" ∨ t = "photo_comment_edit" ∨ t = "photo_comment_restore")
      ∧ ("on_photo_comment_new" ∈ extra ∨ "on_photo_comment_edit" ∈ extra
          ∨ "on_photo_comment_restore" ∈ extra) then .task t
  else if t = "photo_comment_delete" ∧ "on_photo_comment_delete" ∈ extra then .task t
  else if t = "audio_new" ∧ "on_audio_new" ∈ extra then .task t
  else if t = "video_new" ∧ "on_video_new" ∈ extra then .task t
  else if (t = "video_comment_new" ∨ t = "video_comment_edit" ∨ t = "video_comment_restore")
      ∧ ("on_video_comment_new" ∈ extra ∨ "on_video_comment_edit" ∈ extra
          ∨ "on_video_comment_restore" ∈ extra) then .sync t
  else if t = "video_comment_delete" ∧ "on_video_comment_delete" ∈ extra then .task t
  else if (t = "wall_post_new" ∨ t = "wall_repost")
      ∧ ("on_wall_post_new" ∈ extra ∨ "on_wall_repost" ∈ extra) then .task t
  else if (t = "wall_reply_new" ∨ t = "wall_reply_edit" ∨ t = "wall_reply_restore")
      ∧ ("on_wall_reply_new" ∈ extra ∨ "on_wall_reply_edit" ∈ extra
          ∨ "on_wall_reply_restore" ∈ extra) then .task t
  else if t = "wall_reply_delete" ∧ "on_wall_reply_delete" ∈ extra then .task t
  else if (t = "board_post_new" ∨ t = "board_post_edit" ∨ t = "board_post_restore")
      ∧ ("on_board_post_new" ∈ extra ∨ "on_board_post_edit" ∈ extra
          ∨ "on_board_post_restore" ∈ extra) then .task t
  else if t = "board_post_delete" ∧ "on_board_post_delete" ∈ extra then .task t
  else if (t = "market_comment_new" ∨ t = "market_comment_edit" ∨ t = "market_comment_restore")
      ∧ ("on_market_comment_new" ∈ extra ∨ "on_market_comment_edit" ∈ extra
          ∨ "on_market_comment_restore" ∈ extra) then .task t
  else if t = "market_comment_delete" ∧ "on_market_comment_delete" ∈ extra then .task t
  else if t = "group_leave" ∧ "on_group_leave" ∈ extra then .task t
  else if t = "group_join" ∧ "on_group_join" ∈ extra then .task t
  else if t = "user_block" ∧ "on_user_block" ∈ extra then .task t
  else if t = "user_unblock" ∧ "on_user_unblock" ∈ extra then .task t
  else if t = "poll_vote_new" ∧ "on_poll_vote_new" ∈ extra then .task t
  else if t = "group_officers_edit" ∧ "on_group_officers_edit" ∈ extra then .task t
  else if t ∉ implemented_events ∧ "on_unknown" ∈ extra then .sync "unknown"
  else .drop

/-- Outcome of one `self.handle_update(update)` call as the `while True` loop
of `Client._run` observes it: a normal return, or an exception escaping it. -/
inductive HandleOutcome
  | ok
  | raised (e : String)
  deriving DecidableEq, Repr

/-- Index of the first envelope of the batch whose handling raises, if any. -/
def firstRaise (h : Update → HandleOutcome) (updates : List Update) :
    Option Nat :=
  updates.findIdx? (fun u =>
    match h u with
    | .ok => false
    | .raised _ => true)

/-- What one iteration of the `while True` loop in `Client._run` produces. -/
structure CycleResult where
  /-- The cursor the next iteration polls with. -/
  ts : Nat
  /-- The batch the next iteration's `for update in updates` walks. -/
  updates : List Update
  /-- The envelopes `self.handle_update` was called on during this iteration,
  in order (the last one listed is the raising one, when one raised). -/
  handled : List Update
  /-- Whether the `except` branch ran `get_longpoll_server` again. -/
  renegotiated : Bool
  deriving DecidableEq, Repr

/-- One iteration of the `while True` loop of `Client._run`: schedule the next
`longpoll` call as a task, walk the previous batch through
`self.handle_update` in order, then `ts, updates = await lp`. The whole body
sits in one `try`, so an exception raised by any `handle_update` call is
caught by the loop's own `except Exception`, which logs it, renegotiates the
session (`ts = await self.get_longpoll_server()`) and leaves `updates` bound
to the same batch; the assignment from the poll task never runs in that case.
`lp` is the poll task's eventual result, `renegTs` the cursor a renegotiation
would return. -/
def run_cycle (h : Update → HandleOutcome) (updates : List Update)
    (lp : Nat × List Update) (renegTs : Nat) : CycleResult :=
  match firstRaise h updates with
  | none => ⟨lp.1, lp.2, updates, false⟩
  | some k => ⟨renegTs, updates, updates.take (k + 1), true⟩

/-! ## Supervised handler execution: `Client._run_event` -/

/-- How an awaited coroutine finishes: normally, by `asyncio.CancelledError`,
or by another exception. -/
inductive RunOutcome
  | ok
  | cancelledErr
  | raised (e : String)
  deriving DecidableEq, Repr

/-- Observable behaviour of one `Client._run_event` invocation. -/
structure RunEventResult where
  /-- Each `self.on_error(event_name, *args)` invocation, with its arguments. -/
  on_error_calls : List (String × List Nat)
  /-- The exception escaping `_run_event` itself, if any. -/
  propagated : Option String
  deriving DecidableEq, Repr

/-- `Client._run_event(coro, event_name, *args)`: await the handler coroutine;
`asyncio.CancelledError` is swallowed with `pass`; any other exception leads to
`await self.on_error(event_name, *args)`, which is itself guarded only against
`asyncio.CancelledError` — so only a non-cancel exception raised by `on_error`
itself can escape. The handler's and the failure hook's behaviours are the
`handler` and `onError` parameters. -/
def run_event (eventName : String) (args : List Nat)
    (handler : RunOutcome) (onError : RunOutcome) : RunEventResult :=
  match handler with
  | .ok => ⟨[], none⟩
  | .cancelledErr => ⟨[], none⟩
  | .raised _ =>
    match onError with
    | .ok => ⟨[(eventName, args)], none⟩
    | .cancelledErr => ⟨[(eventName, args)], none⟩
    | .raised e2 => ⟨[(eventName, args)], some e2⟩

/-! ## Long-poll transport: `Client.longpoll` and `Client.get_longpoll_server` -/

/-- The JSON body a long-poll request returns, as `Client.longpoll` reads it:
the `'ts'` key when present, whether a `'failed'` key is present, and the
`'updates'` key when present (`res.get('updates', [])`). -/
structure LPResponse where
  ts : Option Nat
  failed : Bool
  updates : Option (List Update)
  deriving DecidableEq, Repr

/-- Outcome of the `await self.general_request(self.server, **payload)` call
inside `Client.longpoll`: a response body, or `asyncio.TimeoutError`. -/
inductive PollOutcome
  | timeoutErr
  | response (r : LPResponse)
  deriving DecidableEq, Repr

/-- `Client.longpoll(ts)`: on `asyncio.TimeoutError` return the unchanged
cursor and no updates; otherwise, when the body has no `'ts'` key or has a
`'failed'` key, take the cursor from a fresh `get_longpoll_server` negotiation
(`renegTs`), else take `res['ts']`; either way return `res.get('updates', [])`. -/
def longpoll (ts : Nat) (out : PollOutcome) (renegTs : Nat) :
    Nat × List Update :=
  match out with
  | .timeoutErr => (ts, [])
  | .response r =>
    let ts1 := if r.ts.isNone || r.failed then renegTs else r.ts.getD 0
    (ts1, r.updates.getD [])

/-- The `'error'` object of a `groups.getLongPollServer` response. -/
structure GLSError where
  error_code : Nat
  error_msg : String
  deriving DecidableEq, Repr

/-- One `groups.getLongPollServer` API response: an error object, or a
`'response'` carrying `key`, `server` and `ts`. -/
inductive GLSResponse
  | err (e : GLSError)
  | ok (key server : String) (ts : Nat)
  deriving DecidableEq, Repr

/-- How a `Client.get_longpoll_server` call ends. -/
inductive GLSResult
  | ok (key server : String) (ts : Nat)
  /-- A raised `VKApiError` with its message. -/
  | fatal (msg : String)
  /-- The scripted transport ran out of responses (model artifact only). -/
  | noResponse
  deriving DecidableEq, Repr

/-- `Client.get_longpoll_server` run against a script of successive API
responses, one per call, counting the `enable_longpoll` invocations. On error
code 100 with `self.force` set: call `self.enable_longpoll()` once, then retry
the negotiation (the recursive `get_longpoll_server` call) on the rest of the
script; without `force`, raise
`VKApiError('Longpoll is disabled for this group. Enable longpoll or try force mode')`.
Any other error raises the `'[{error_code}]{error_msg}'`-formatted
`VKApiError`; a success stores key/server and returns `ts`. -/
def get_longpoll_server (force : Bool) :
    List GLSResponse → Nat → GLSResult × Nat
  | [], enables => (.noResponse, enables)
  | .err e :: rest, enables =>
    if e.error_code = 100 then
      if force then get_longpoll_server force rest (enables + 1)
      else (.fatal "Longpoll is disabled for this group. Enable longpoll or try force mode",
            enables)
    else (.fatal ("[" ++ toString e.error_code ++ "]" ++ e.error_msg), enables)
  | .ok k s ts :: _, enables => (.ok k s ts, enables)

/-! ## Theorems -/

/-- C6: for every scheduled handler invocation run through `Client._run_event`:
a handler raising `asyncio.CancelledError` is swallowed and the failure hook is
not invoked; a handler raising any other exception leads to exactly one
`on_error` invocation with the event name and the same arguments; and any
exception escaping `_run_event` is a non-cancel failure of `on_error` itself,
never the handler's own — so the handler's exception cannot reach the
ingestion loop. -/
theorem run_event_isolation (eventName : String) (args : List Nat)
    (handler onError : RunOutcome) :
    (handler = RunOutcome.cancelledErr →
        (run_event eventName args handler onError).on_error_calls = []
        ∧ (run_event eventName args handler onError).propagated = none)
    ∧ (∀ e, handler = RunOutcome.raised e →
        (run_event eventName args handler onError).on_error_calls
          = [(eventName, args)])
    ∧ (∀ e2, (run_event eventName args handler onError).propagated = some e2 →
        onError = RunOutcome.raised e2) := by
  refine ⟨?_, ?_, ?_⟩ <;>
    cases handler <;> cases onError <;> simp [run_event]

/-- C6 witness: a handler failure on `message_new` with well-behaved `on_error`
invokes the hook exactly once with the event name and arguments. -/
theorem run_event_isolation_witness :
    (run_event "message_new" [3, 4] (RunOutcome.raised "boom")
        RunOutcome.ok).on_error_calls = [("message_new", [3, 4])] :=
  (run_event_isolation "message_new" [3, 4] (RunOutcome.raised "boom")
    RunOutcome.ok).2.1 "boom" rfl

/-- C7: a successful poll (body has a `'ts'` key and no `'failed'` key) makes
`Client.longpoll` return the response's cursor, also when the update batch is
empty; a local `asyncio.TimeoutError` yields the unchanged cursor and an empty
batch instead of an error. -/
theorem longpoll_cursor (ts renegTs t : Nat) (r : LPResponse) :
    (r.ts = some t → r.failed = false →
        longpoll ts (PollOutcome.response r) renegTs = (t, r.updates.getD []))
    ∧ (r.ts = some t → r.failed = false → r.updates = some [] →
        longpoll ts (PollOutcome.response r) renegTs = (t, []))
    ∧ longpoll ts PollOutcome.timeoutErr renegTs = (ts, []) := by
  refine ⟨fun h1 h2 => ?_, fun h1 h2 h3 => ?_, rfl⟩ <;>
    simp [longpoll, h1, h2, *]

/-- C7 witness: a successful poll carrying `ts = 5` and an empty batch makes
`longpoll` adopt cursor 5 with no updates; a timeout keeps cursor 3. -/
theorem longpoll_cursor_witness :
    longpoll 3 (PollOutcome.response ⟨some 5, false, some []⟩) 99 = (5, [])
    ∧ longpoll 3 PollOutcome.timeoutErr 99 = (3, []) :=
  ⟨(longpoll_cursor 3 99 5 ⟨some 5, false, some []⟩).2.1 rfl rfl rfl,
   (longpoll_cursor 3 99 5 ⟨some 5, false, some []⟩).2.2⟩

/-- C8: on the long-poll-disabled error (code 100), `get_longpoll_server` with
`force` set performs exactly one `enable_longpoll` attempt and one retry of the
negotiation; without `force` it raises the fatal `VKApiError` without enabling
anything, so ingestion does not proceed. -/
theorem get_longpoll_server_error100 (e : GLSError) (h100 : e.error_code = 100)
    (rest : List GLSResponse) (enables : Nat) :
    get_longpoll_server true (GLSResponse.err e :: rest) enables
        = get_longpoll_server true rest (enables + 1)
    ∧ get_longpoll_server false (GLSResponse.err e :: rest) enables
        = (GLSResult.fatal
            "Longpoll is disabled for this group. Enable longpoll or try force mode",
           enables) := by
  constructor <;> simp [get_longpoll_server, h100]

/-- C8 witness: with `force`, error 100 followed by a success yields the
negotiated cursor after exactly one enable attempt; without `force`, the same
error is fatal with zero enable attempts. -/
theorem get_longpoll_server_error100_witness :
    get_longpoll_server true
        (GLSResponse.err ⟨100, "longpoll disabled"⟩ :: [GLSResponse.ok "k" "s" 7]) 0
      = (GLSResult.ok "k" "s" 7, 1)
    ∧ get_longpoll_server false
        (GLSResponse.err ⟨100, "longpoll disabled"⟩ :: [GLSResponse.ok "k" "s" 7]) 0
      = (GLSResult.fatal
          "Longpoll is disabled for this group. Enable longpoll or try force mode", 0) :=
  ⟨((get_longpoll_server_error100 ⟨100, "longpoll disabled"⟩ rfl
      [GLSResponse.ok "k" "s" 7] 0).1).trans rfl,
   (get_longpoll_server_error100 ⟨100, "longpoll disabled"⟩ rfl
      [GLSResponse.ok "k" "s" 7] 0).2⟩

/-- C1 counterexample: a two-envelope batch whose first envelope's handling
raises. The loop of `Client._run` catches the exception, but the second
envelope is never handled in that cycle, the session is renegotiated (cursor
becomes the renegotiated 42), and the same batch is left for the next cycle —
contradicting the claim that the rest of the batch is still processed and that
no renegotiation happens. -/
theorem run_cycle_abort_cex :
    run_cycle
        (fun u => if u.type = "bad" then HandleOutcome.raised "boom" else HandleOutcome.ok)
        [⟨"bad", none, none⟩, ⟨"good", none, none⟩] (1, []) 42
      = ⟨42, [⟨"bad", none, none⟩, ⟨"good", none, none⟩], [⟨"bad", none, none⟩], true⟩ := by
  decide

/-- C1 (amended): an exception raised while handling one envelope is caught
and logged by the loop of `Client._run`, but at the cycle level, not per
envelope: the envelopes after the raising one are not handled in that cycle,
the long-poll session is renegotiated, and the same batch (from its beginning)
is what the next cycle walks. Only a batch with no raising envelope is handled
in full, with no renegotiation, adopting the poll task's cursor and batch. -/
theorem run_cycle_exception_policy (h : Update → HandleOutcome)
    (updates : List Update) (lp : Nat × List Update) (renegTs : Nat) :
    (firstRaise h updates = none →
        run_cycle h updates lp renegTs = ⟨lp.1, lp.2, updates, false⟩)
    ∧ (∀ k, firstRaise h updates = some k →
        (run_cycle h updates lp renegTs).renegotiated = true
        ∧ (run_cycle h updates lp renegTs).handled = updates.take (k + 1)
        ∧ (run_cycle h updates lp renegTs).updates = updates
        ∧ (run_cycle h updates lp renegTs).ts = renegTs) := by
  constructor
  · intro hnone; simp [run_cycle, hnone]
  · intro k hk; simp [run_cycle, hk]

/-- C1 witness: instantiates the amended statement on the two-envelope batch
whose first envelope raises: only the raising envelope is handled, the cursor
comes from renegotiation. -/
theorem run_cycle_exception_policy_witness :
    (run_cycle
        (fun u => if u.type = "bad" then HandleOutcome.raised "boom" else HandleOutcome.ok)
        [⟨"bad", none, none⟩, ⟨"good", none, none⟩] (1, []) 42).renegotiated = true
    ∧ (run_cycle
        (fun u => if u.type = "bad" then HandleOutcome.raised "boom" else HandleOutcome.ok)
        [⟨"bad", none, none⟩, ⟨"good", none, none⟩] (1, []) 42).handled
      = [⟨"bad", none, none⟩, ⟨"good", none, none⟩].take 1
    ∧ (run_cycle
        (fun u => if u.type = "bad" then HandleOutcome.raised "boom" else HandleOutcome.ok)
        [⟨"bad", none, none⟩, ⟨"good", none, none⟩] (1, []) 42).updates
      = [⟨"bad", none, none⟩, ⟨"good", none, none⟩]
    ∧ (run_cycle
        (fun u => if u.type = "bad" then HandleOutcome.raised "boom" else HandleOutcome.ok)
        [⟨"bad", none, none⟩, ⟨"good", none, none⟩] (1, []) 42).ts = 42 :=
  (run_cycle_exception_policy
      (fun u => if u.type = "bad" then HandleOutcome.raised "boom" else HandleOutcome.ok)
      [⟨"bad", none, none⟩, ⟨"good", none, none⟩] (1, []) 42).2 0 (by decide)

/-- An empty client state: no futures resolved, no listeners. -/
def emptyState : ClientState := ⟨fun _ => FutureState.pending, 0, []⟩

/-- C3 counterexample: register a waiter for `ready` and let its timeout fire.
`asyncio.wait_for` cancels the future and raises `TimeoutError`, but
`Client.wait_for` runs no registry cleanup, so — contrary to the claim — the
listener registry still contains the entry right after the timeout. -/
theorem wait_for_timeout_entry_remains :
    (getListeners
        (timeout_expire (wait_for emptyState "ready" default_check).1
          (wait_for emptyState "ready" default_check).2) "ready").isSome = true
    ∧ ((getListeners
        (timeout_expire (wait_for emptyState "ready" default_check).1
          (wait_for emptyState "ready" default_check).2) "ready").getD []).length = 1
    ∧ (timeout_expire (wait_for emptyState "ready" default_check).1
          (wait_for emptyState "ready" default_check).2).futures 0
        = FutureState.cancelled := by
  refine ⟨rfl, rfl, rfl⟩

/-- C3 (amended): when the `wait_for` timeout elapses before any matching
dispatch, the wait fails with `asyncio.TimeoutError` and the future is
cancelled, but the registry entry is only removed lazily: it survives the
timeout itself, and the next dispatch of that event name removes it through
the `future.cancelled()` branch — without evaluating its predicate (the
conclusion holds for every `check`) and without resolving the future. -/
theorem wait_for_timeout_lazy_cleanup (check : Check) (args : List Nat) :
    getListeners
        (timeout_expire (wait_for emptyState "ready" check).1
          (wait_for emptyState "ready" check).2) "ready"
      = some [(0, check)]
    ∧ (dispatch
        (timeout_expire (wait_for emptyState "ready" check).1
          (wait_for emptyState "ready" check).2) "ready" args).futures 0
      = FutureState.cancelled
    ∧ getListeners
        (dispatch
          (timeout_expire (wait_for emptyState "ready" check).1
            (wait_for emptyState "ready" check).2) "ready" args) "ready"
      = none := by
  refine ⟨rfl, rfl, rfl⟩

/-- C4 counterexample: `wait_for("Ready")` stores its entry under the
lower-cased key `ready`, but `dispatch("Ready", 5)` looks the name up
verbatim, finds nothing, and returns with the state unchanged: the waiter is
neither found nor evaluated, and its future stays pending — contradicting the
claimed case-insensitive lookup. -/
theorem dispatch_case_mismatch_cex :
    dispatch (wait_for emptyState "Ready" default_check).1 "Ready" [5]
        = (wait_for emptyState "Ready" default_check).1
    ∧ (dispatch (wait_for emptyState "Ready" default_check).1 "Ready" [5]).futures 0
        = FutureState.pending
    ∧ getListeners (wait_for emptyState "Ready" default_check).1 "Ready" = none := by
  refine ⟨rfl, rfl, rfl⟩

/-- C4 (amended): `Client.wait_for` stores the entry under the lower-cased
event name while `Client.dispatch` looks its argument up verbatim, so the
waiter is found exactly by the dispatch call whose event name equals the
lower-cased registration name — and such a dispatch does evaluate the waiter,
resolving its future when the predicate matches. -/
theorem wait_for_dispatch_lookup (event dname : String) (check : Check)
    (args : List Nat) :
    (dname = lower event →
        getListeners (wait_for emptyState event check).1 dname = some [(0, check)])
    ∧ (dname ≠ lower event →
        getListeners (wait_for emptyState event check).1 dname = none)
    ∧ (dname = lower event → check args = CheckResult.ok true →
        (dispatch (wait_for emptyState event check).1 dname args).futures 0
          = FutureState.result (waiterStep.dispatchVal args)) := by
  refine ⟨fun hd => ?_, fun hd => ?_, fun hd hc => ?_⟩
  · subst hd
    simp [wait_for, getListeners, emptyState]
  · simp [wait_for, getListeners, emptyState]
    intro h
    exact absurd h.symm hd
  · subst hd
    simp [wait_for, getListeners, emptyState, dispatch, waiterPass, waiterStep,
      FutureState.isCancelled, setFuture, hc]

/-- A predicate that rejects every event (used to exercise the non-matching
branch of the waiter loop). -/
def never_check : Check := fun _ => CheckResult.ok false

/-- A future not named by any entry of a waiter pass is untouched by it. -/
theorem waiterPass_frame (args : List Nat) (fs : Nat → FutureState)
    (ls : List (Nat × Check)) (j : Nat) (hj : j ∉ ls.map Prod.fst) :
    (waiterPass args fs ls).1 j = fs j := by
  induction ls generalizing fs with
  | nil => rfl
  | cons hd tl ih =>
    obtain ⟨fid, c⟩ := hd
    simp only [List.map_cons, List.mem_cons, not_or] at hj
    show (waiterPass args (setFuture fs fid (waiterStep args (fs fid) c).1) tl).1 j = fs j
    rw [ih _ hj.2]
    simp [setFuture, hj.1]

/-- In a waiter pass whose entries hold pairwise distinct futures, entry `i`'s
future ends in the state `waiterStep` computes from its pre-pass state, and
entry `i`'s removal flag is the one `waiterStep` computes. -/
theorem waiterPass_apply (args : List Nat) (fs : Nat → FutureState)
    (ls : List (Nat × Check)) (hnd : (ls.map Prod.fst).Nodup)
    (i : Nat) (h : i < ls.length) :
    (waiterPass args fs ls).1 (ls.get ⟨i, h⟩).1
        = (waiterStep args (fs (ls.get ⟨i, h⟩).1) (ls.get ⟨i, h⟩).2).1
    ∧ (waiterPass args fs ls).2.get? i
        = some (waiterStep args (fs (ls.get ⟨i, h⟩).1) (ls.get ⟨i, h⟩).2).2 := by
  induction ls generalizing fs i with
  | nil => exact absurd h (Nat.not_lt_zero i)
  | cons hd tl ih =>
    obtain ⟨fid, c⟩ := hd
    simp only [List.map_cons, List.nodup_cons] at hnd
    cases i with
    | zero =>
      refine ⟨?_, rfl⟩
      show (waiterPass args (setFuture fs fid (waiterStep args (fs fid) c).1) tl).1 fid = _
      rw [waiterPass_frame args _ tl fid hnd.1]
      simp [setFuture]
    | succ j =>
      have hj : j < tl.length := Nat.lt_of_succ_lt_succ h
      have hmem : (tl.get ⟨j, hj⟩).1 ∈ tl.map Prod.fst :=
        List.mem_map_of_mem Prod.fst (tl.get_mem j hj)
      have hne : (tl.get ⟨j, hj⟩).1 ≠ fid := fun hcontra => hnd.1 (hcontra ▸ hmem)
      have hstep := ih (setFuture fs fid (waiterStep args (fs fid) c).1) hnd.2 j hj
      have hpre : setFuture fs fid (waiterStep args (fs fid) c).1 (tl.get ⟨j, hj⟩).1
          = fs (tl.get ⟨j, hj⟩).1 := by
        simp only [setFuture]
        rw [if_neg hne]
      rw [hpre] at hstep
      exact ⟨hstep.1, hstep.2⟩

/-- C2: within one `dispatch(event, *args)` call, each listener entry, taken
in registration order: an entry whose future is already cancelled is removed
with its future untouched (the conclusion holds whatever its predicate is, so
the predicate plays no part); an entry whose predicate raises gets that
exception set on its future and is removed; an entry whose predicate matches
gets its future resolved — with no value for zero arguments, the sole value
for one, the full ordered tuple otherwise — and is removed; a non-matching
entry is kept with its future still pending. The conclusion holds for every
index `i`, so all entries whose predicate matches are resolved in the same
single pass: one event can satisfy several waiters. -/
theorem dispatch_waiter_entry (args : List Nat) (fs : Nat → FutureState)
    (ls : List (Nat × Check)) (hnd : (ls.map Prod.fst).Nodup)
    (i : Nat) (h : i < ls.length) :
    (fs (ls.get ⟨i, h⟩).1 = FutureState.cancelled →
        (waiterPass args fs ls).2.get? i = some true
        ∧ (waiterPass args fs ls).1 (ls.get ⟨i, h⟩).1 = FutureState.cancelled)
    ∧ (∀ e, fs (ls.get ⟨i, h⟩).1 = FutureState.pending →
        (ls.get ⟨i, h⟩).2 args = CheckResult.exc e →
        (waiterPass args fs ls).2.get? i = some true
        ∧ (waiterPass args fs ls).1 (ls.get ⟨i, h⟩).1 = FutureState.failure e)
    ∧ (fs (ls.get ⟨i, h⟩).1 = FutureState.pending →
        (ls.get ⟨i, h⟩).2 args = CheckResult.ok true →
        (waiterPass args fs ls).2.get? i = some true
        ∧ (waiterPass args fs ls).1 (ls.get ⟨i, h⟩).1
            = FutureState.result (waiterStep.dispatchVal args))
    ∧ (fs (ls.get ⟨i, h⟩).1 = FutureState.pending →
        (ls.get ⟨i, h⟩).2 args = CheckResult.ok false →
        (waiterPass args fs ls).2.get? i = some false
        ∧ (waiterPass args fs ls).1 (ls.get ⟨i, h⟩).1 = FutureState.pending)
    ∧ (waiterStep.dispatchVal [] = DispatchVal.noArgs
        ∧ (∀ a, waiterStep.dispatchVal [a] = DispatchVal.single a)
        ∧ ∀ a b l, waiterStep.dispatchVal (a :: b :: l)
            = DispatchVal.tuple (a :: b :: l)) := by
  obtain ⟨h1, h2⟩ := waiterPass_apply args fs ls hnd i h
  refine ⟨fun hc => ?_, fun e hp hc => ?_, fun hp hc => ?_, fun hp hc => ?_,
    rfl, fun a => rfl, fun a b l => rfl⟩
  · rw [h1, h2, hc]
    simp [waiterStep, FutureState.isCancelled]
  · rw [h1, h2, hp]
    simp only [List.get_eq_getElem] at hc
    simp [waiterStep, FutureState.isCancelled, hc]
  · rw [h1, h2, hp]
    simp only [List.get_eq_getElem] at hc
    simp [waiterStep, FutureState.isCancelled, hc]
  · rw [h1, h2, hp]
    simp only [List.get_eq_getElem] at hc
    simp [waiterStep, FutureState.isCancelled, hc]

/-- C2 witness: one pending waiter whose predicate accepts the single-argument
event `[7]` is removed and resolved with that sole argument. -/
theorem dispatch_waiter_entry_witness :
    (waiterPass [7] (fun _ => FutureState.pending) [(0, default_check)]).2.get? 0
        = some true
    ∧ (waiterPass [7] (fun _ => FutureState.pending) [(0, default_check)]).1 0
        = FutureState.result (waiterStep.dispatchVal [7]) :=
  (dispatch_waiter_entry [7] (fun _ => FutureState.pending) [(0, default_check)]
    (by decide) 0 (by decide)).2.2.1 rfl rfl

/-- The waiter pass emits one removal flag per entry. -/
theorem waiterPass_flags_length (args : List Nat) (fs : Nat → FutureState)
    (ls : List (Nat × Check)) :
    (waiterPass args fs ls).2.length = ls.length := by
  induction ls generalizing fs with
  | nil => rfl
  | cons hd tl ih =>
    obtain ⟨fid, c⟩ := hd
    show ((waiterStep args (fs fid) c).2 ::
        (waiterPass args (setFuture fs fid (waiterStep args (fs fid) c).1) tl).2).length
      = tl.length + 1
    simp [ih]

/-- Popping a key from the registry (`self._listeners.pop(event)`) makes a
subsequent `get` of that key miss. -/
theorem find?_filter_out {α : Type} (l : List (String × α)) (event : String) :
    (l.filter (fun p => !(p.1 == event))).find? (fun p => p.1 == event) = none := by
  rw [List.find?_eq_none]
  intro p hp
  have hmem := (List.mem_filter.mp hp).2
  simp only [Bool.not_eq_true'] at hmem
  simp [hmem]

/-- Replacing the value stored under a key (what the in-place `del` of removed
indices amounts to for the registry) commutes with looking the key up. -/
theorem find?_update {α : Type} (l : List (String × α)) (event : String) (v : α) :
    (l.map (fun p => if p.1 == event then (p.1, v) else p)).find?
        (fun p => p.1 == event)
      = (l.find? (fun p => p.1 == event)).map (fun p => (p.1, v)) := by
  induction l with
  | nil => rfl
  | cons hd tl ih =>
    cases hk : (hd.1 == event) with
    | true =>
      have he : hd.1 = event := by simpa using hk
      simp [List.find?_cons, he]
    | false =>
      simp only [List.map_cons, List.find?_cons]
      rw [if_neg (by simp [hk] : ¬ ((hd.1 == event) = true))]
      rw [hk]
      exact ih

/-- When not every removal flag is set, the kept entries form a non-empty
list. -/
theorem kept_ne_nil {α : Type} (ls : List α) (flags : List Bool)
    (hlen : flags.length = ls.length) (hall : flags.all (fun b => b) = false) :
    ((ls.zip flags).filter (fun p => !p.2)).map Prod.fst ≠ [] := by
  induction ls generalizing flags with
  | nil =>
    cases flags with
    | nil => simp at hall
    | cons b fl => simp at hlen
  | cons a tl ih =>
    cases flags with
    | nil => simp at hlen
    | cons b fl =>
      cases b with
      | false => simp
      | true =>
        have hall2 : fl.all (fun b => b) = false := by simpa using hall
        have hlen2 : fl.length = tl.length := by simpa using hlen
        simpa using ih fl hlen2 hall2

/-- The kept entries are a subsequence of the original listener list: the
surviving entries keep their registration order. -/
theorem kept_sublist {α : Type} (ls : List α) (flags : List Bool) :
    List.Sublist (((ls.zip flags).filter (fun p => !p.2)).map Prod.fst) ls := by
  induction ls generalizing flags with
  | nil => simp
  | cons a tl ih =>
    cases flags with
    | nil => simp
    | cons b fl =>
      cases b with
      | false => simpa using List.Sublist.cons₂ a (ih fl)
      | true => exact List.Sublist.cons a (ih fl)

/-- C9: after a `dispatch` on an event name carrying a non-empty listener
list, the registry never maps that name to an empty list: when the waiter pass
removed every entry, the name's key is dropped entirely; otherwise the key
maps to exactly the non-removed entries — a non-empty subsequence of the
entries in registration order. -/
theorem dispatch_no_empty_lists (st : ClientState) (event : String)
    (args : List Nat) (ls : List (Nat × Check))
    (hin : getListeners st event = some ls) (hne : ls ≠ []) :
    ((waiterPass args st.futures ls).2.all (fun b => b) = true →
        getListeners (dispatch st event args) event = none)
    ∧ ((waiterPass args st.futures ls).2.all (fun b => b) = false →
        getListeners (dispatch st event args) event
            = some (((ls.zip (waiterPass args st.futures ls).2).filter
                (fun p => !p.2)).map Prod.fst)
          ∧ ((ls.zip (waiterPass args st.futures ls).2).filter
                (fun p => !p.2)).map Prod.fst ≠ []
          ∧ List.Sublist (((ls.zip (waiterPass args st.futures ls).2).filter
                (fun p => !p.2)).map Prod.fst) ls)
    ∧ getListeners (dispatch st event args) event ≠ some [] := by
  have hemp : ls.isEmpty = false := by
    cases ls with
    | nil => exact absurd rfl hne
    | cons a tl => rfl
  have hin2 : (st.listeners.find? (fun p => p.1 == event)).map (fun p => p.2)
      = some ls := hin
  obtain ⟨q, hq, hq2⟩ := Option.map_eq_some'.mp hin2
  have hkeptlen := waiterPass_flags_length args st.futures ls
  have hpop := find?_filter_out st.listeners event
  have hdisp : dispatch st event args =
      ⟨(waiterPass args st.futures ls).1, st.nextId,
        if (waiterPass args st.futures ls).2.all (fun b => b) then
          st.listeners.filter (fun p => !(p.1 == event))
        else
          st.listeners.map (fun p => if p.1 == event then
            (p.1, ((ls.zip (waiterPass args st.futures ls).2).filter
              (fun p => !p.2)).map (fun p => p.1)) else p)⟩ := by
    simp only [dispatch, hin, hemp]
    rfl
  refine ⟨fun hall => ?_, fun hall => ?_, ?_⟩
  · rw [hdisp]
    simp only [getListeners, if_pos hall]
    rw [hpop]
    rfl
  · refine ⟨?_, kept_ne_nil ls _ hkeptlen hall, kept_sublist ls _⟩
    have hcond : ¬ ((waiterPass args st.futures ls).2.all (fun b => b) = true) := by
      simp [hall]
    rw [hdisp]
    simp only [getListeners, if_neg hcond]
    rw [find?_update, hq]
    rfl
  · cases hall : (waiterPass args st.futures ls).2.all (fun b => b) with
    | true =>
      have hnone : getListeners (dispatch st event args) event = none := by
        rw [hdisp]
        simp only [getListeners, if_pos hall]
        rw [hpop]
        rfl
      rw [hnone]
      simp
    | false =>
      have hcond : ¬ ((waiterPass args st.futures ls).2.all (fun b => b) = true) := by
        simp [hall]
      have hsome : getListeners (dispatch st event args) event
          = some (((ls.zip (waiterPass args st.futures ls).2).filter
              (fun p => !p.2)).map Prod.fst) := by
        rw [hdisp]
        simp only [getListeners, if_neg hcond]
        rw [find?_update, hq]
        rfl
      rw [hsome]
      intro hcontra
      exact kept_ne_nil ls _ hkeptlen hall (by simpa using hcontra)

/-- C9 witness: with one matching and one non-matching waiter registered for
`e`, dispatching `e` keeps exactly the non-matching entry, so the key still
maps to a non-empty list. -/
theorem dispatch_no_empty_lists_witness :
    getListeners (dispatch
        ⟨fun _ => FutureState.pending, 2, [("e", [(0, default_check), (1, never_check)])]⟩
        "e" [3]) "e"
      = some [(1, never_check)] :=
  ((dispatch_no_empty_lists
      ⟨fun _ => FutureState.pending, 2, [("e", [(0, default_check), (1, never_check)])]⟩
      "e" [3] [(0, default_check), (1, never_check)] rfl
      (by simp)).2.1 (by decide)).1

/-- The group of `on_...` handler names tested by the `handle_update` branch
that matches the given implemented event type — the names of the branch's
guard. `group_change_settings` and `group_change_photo` appear in no branch at
all; every other non-grouped type is gated by its own `on_<type>` name.
(`message_new` has no gate; the theorems below exclude it.) -/
def event_group (t : String) : List String :=
  if t = "message_allow" ∨ t = "message_deny" then
    ["on_message_allow", "on_message_deny"]
  else if t = "photo_comment_new" ∨ t = "photo_comment_edit" ∨ t = "photo_comment_restore" then
    ["on_photo_comment_new", "on_photo_comment_edit", "on_photo_comment_restore"]
  else if t = "video_comment_new" ∨ t = "video_comment_edit" ∨ t = "video_comment_restore" then
    ["on_video_comment_new", "on_video_comment_edit", "on_video_comment_restore"]
  else if t = "wall_post_new" ∨ t = "wall_repost" then
    ["on_wall_post_new", "on_wall_repost"]
  else if t = "wall_reply_new" ∨ t = "wall_reply_edit" ∨ t = "wall_reply_restore" then
    ["on_wall_reply_new", "on_wall_reply_edit", "on_wall_reply_restore"]
  else if t = "board_post_new" ∨ t = "board_post_edit" ∨ t = "board_post_restore" then
    ["on_board_post_new", "on_board_post_edit", "on_board_post_restore"]
  else if t = "market_comment_new" ∨ t = "market_comment_edit" ∨ t = "market_comment_restore" then
    ["on_market_comment_new", "on_market_comment_edit", "on_market_comment_restore"]
  else if t = "group_change_settings" ∨ t = "group_change_photo" then []
  else ["on_" ++ t]

/-- The implemented event types (other than `message_new`) whose matched
branch dispatches synchronously inside `handle_update`: `message_reply` and
`message_edit` call plain handlers directly, and `handle_video_comment_new`
is a plain `def` called without `create_task`. -/
def sync_handled : List String :=
  ["message_reply", "message_edit",
   "video_comment_new", "video_comment_edit", "video_comment_restore"]

/-- How `handle_update` treats an implemented, non-`message_new` envelope, as
one closed form: its branch fires iff some name of the branch's guard group is
registered, and then it is dispatched synchronously or as a task according to
`sync_handled`; otherwise the envelope is dropped. -/
theorem handle_update_char (t : String) (ht : t ∈ implemented_events)
    (hmn : t ≠ "message_new") (extra : List String) :
    handle_update extra ⟨t, none, none⟩ =
      if (event_group t).any (fun n => extra.contains n) then
        (if t ∈ sync_handled then UpdateAction.sync t else UpdateAction.task t)
      else UpdateAction.drop := by
  simp only [implemented_events] at ht
  fin_cases ht
  · exact absurd rfl hmn
  all_goals
    simp [handle_update, event_group, sync_handled, implemented_events]

/-- C5 counterexample: an envelope of type `message_deny` with only
`on_message_allow` registered is still routed onward (a task dispatching
`message_deny` is created) although `on_message_deny` is absent from
`extra_events` — contradicting the claim that dispatch happens only when the
type's own `on_<type>` name is registered. -/
theorem handle_update_gate_cex :
    handle_update ["on_message_allow"] ⟨"message_deny", none, none⟩
        = UpdateAction.task "message_deny"
    ∧ ¬ ("on_message_deny" ∈ (["on_message_allow"] : List String)) := by
  decide

/-- C5 (amended): for every implemented update type other than `message_new`,
`handle_update` routes the envelope onward iff some handler name of its
branch's guard group is registered in `extra_events` — registration of any
group member admits every type of the group, not only the type's own
`on_<type>` name; with no group member registered the envelope is discarded
before any dispatch, so a pending `wait_for` on that event name is never
resolved by it. -/
theorem handle_update_gate (t : String) (ht : t ∈ implemented_events)
    (hmn : t ≠ "message_new") (extra : List String) :
    handle_update extra ⟨t, none, none⟩ ≠ UpdateAction.drop
      ↔ (event_group t).any (fun n => extra.contains n) = true := by
  rw [handle_update_char t ht hmn extra]
  cases hg : (event_group t).any (fun n => extra.contains n) with
  | true =>
    simp only [if_pos rfl]
    split_ifs <;> simp
  | false => simp

/-- C5 witness: instantiates the amended gate on the counterexample input —
`message_deny` with only `on_message_allow` registered is not dropped, and the
group condition is what admits it. -/
theorem handle_update_gate_witness :
    handle_update ["on_message_allow"] ⟨"message_deny", none, none⟩
        ≠ UpdateAction.drop
      ↔ (event_group "message_deny").any
          (fun n => (["on_message_allow"] : List String).contains n) = true :=
  handle_update_gate "message_deny" (by decide) (by decide) ["on_message_allow"]

/-- C10 counterexample: an envelope of type `message_reply` (with its handler
registered) is hydrated and dispatched synchronously inside `handle_update`,
not launched as a task — so `message_new` is not the only synchronously
dispatched event type, contradicting the claim. -/
theorem handle_update_sync_cex :
    handle_update ["on_message_reply"] ⟨"message_reply", none, none⟩
        = UpdateAction.sync "message_reply"
    ∧ "message_reply" ≠ "message_new" := by
  decide

/-- C10 (amended): `message_new` is always hydrated and dispatched
synchronously inside `handle_update` (through `handle_message`), but not
alone: `message_reply`, `message_edit` and the
`video_comment_new`/`_edit`/`_restore` group, when admitted by their gates,
are likewise dispatched synchronously before the next envelope is processed;
every other implemented type that passes its gate is handed to
`loop.create_task` and not awaited inline by the ingestion loop. -/
theorem handle_update_sync_vs_task (t : String) (ht : t ∈ implemented_events)
    (hmn : t ≠ "message_new") (extra : List String) (p a : Option String) :
    (handle_update extra ⟨"message_new", p, a⟩
        = UpdateAction.sync (handle_message_event p a))
    ∧ ((event_group t).any (fun n => extra.contains n) = true →
        t ∈ sync_handled →
        handle_update extra ⟨t, none, none⟩ = UpdateAction.sync t)
    ∧ ((event_group t).any (fun n => extra.contains n) = true →
        t ∉ sync_handled →
        handle_update extra ⟨t, none, none⟩ = UpdateAction.task t)
    ∧ ((event_group t).any (fun n => extra.contains n) = false →
        handle_update extra ⟨t, none, none⟩ = UpdateAction.drop) := by
  refine ⟨rfl, fun hg hs => ?_, fun hg hs => ?_, fun hg => ?_⟩ <;>
      rw [handle_update_char t ht hmn extra, hg]
  · rw [if_pos rfl, if_pos hs]
  · rw [if_pos rfl, if_neg hs]
  · simp

/-- C10 witness: `audio_new`, whose hydration needs a network call, is
launched as a task when its gate admits it. -/
theorem handle_update_sync_vs_task_witness :
    handle_update ["on_audio_new"] ⟨"audio_new", none, none⟩
        = UpdateAction.task "audio_new" :=
  (handle_update_sync_vs_task "audio_new" (by decide) (by decide)
      ["on_audio_new"] none none).2.2.1 (by decide) (by decide)

end VkBotting
